import Mathlib

/-!
Verification of the bitbucket-backup-downloader orchestrator (`src/backup.js`)
against its natural-language specification.

The script is shallowly embedded: each JavaScript function becomes a Lean
definition over explicit environments (the remote API, the git subprocess
behaviour, the filesystem), and asynchronous effects become explicit traces
(attempt counts, sleep durations, subprocess invocation lists, log lines).
-/

namespace BitbucketBackup

/-! ## Retry Executor (`withRetry`, backup.js lines 64-79)

`withRetry(fn, desc)` runs `fn` up to `config.maxRetries` times; after the
i-th failed attempt (1-indexed) with `i < maxRetries` it sleeps
`retryBaseMs * 2^(i-1)` ms, and after the last attempt it rethrows the last
error.  We embed the operation as a function from the 1-based attempt number
to `Except ε α`, and record the full observable trace: the final result, the
number of invocations of the operation, and the list of sleep durations in
order.  The error side is `Option ε` because with `maxRetries = 0` the
JavaScript loop body never runs and `throw err` throws `undefined`
(modelled as `none`); every claim below uses `maxRetries ≥ 1`, where the
error is always `some` of a real failure. -/

/-- Trace of one `withRetry` run: final outcome, number of times the wrapped
operation was invoked, and the backoff sleep durations in chronological
order. -/
structure RetryResult (ε α : Type) where
  result : Except (Option ε) α
  attempts : Nat
  sleeps : List Nat
deriving Repr

/-- The retry loop of `withRetry`, starting at attempt number `i` with
`fuel` attempts remaining (`fuel = maxRetries - i + 1` at every call).
Mirrors `for(let i=1;i<=config.maxRetries;i++){...}` with the sleep
guarded by `i < config.maxRetries`, i.e. by `fuel > 1`. -/
def withRetryGo (fn : Nat → Except ε α) (base : Nat) (i : Nat) :
    Nat → RetryResult ε α
  | 0 => ⟨.error none, 0, []⟩
  | fuel + 1 =>
    match fn i with
    | .ok a => ⟨.ok a, 1, []⟩
    | .error e =>
      match fuel with
      | 0 => ⟨.error (some e), 1, []⟩
      | fuel' + 1 =>
        let r := withRetryGo fn base (i + 1) (fuel' + 1)
        ⟨r.result, r.attempts + 1, base * 2 ^ (i - 1) :: r.sleeps⟩

/-- `withRetry fn maxRetries base`: run `fn` with up to `maxRetries`
attempts and exponential backoff with base delay `base` ms
(backup.js lines 64-79, with `config.maxRetries` and `config.retryBaseMs`
passed explicitly). -/
def withRetry (fn : Nat → Except ε α) (maxRetries base : Nat) :
    RetryResult ε α :=
  withRetryGo fn base 1 maxRetries

/-- On a permanently failing operation, the loop starting at attempt `i ≥ 1`
with `k ≥ 1` attempts left performs exactly `k` invocations, sleeps
`base*2^(i-1), ..., base*2^(i+k-3)`, and ends with the error of attempt
`i + k - 1`. -/
theorem withRetryGo_allFail (errf : Nat → ε) (fn : Nat → Except ε α)
    (hfn : ∀ j, fn j = .error (errf j)) (base : Nat) :
    ∀ k i, 1 ≤ k → 1 ≤ i →
      withRetryGo fn base i k =
        ⟨.error (some (errf (i + k - 1))), k,
          (List.range (k - 1)).map (fun j => base * 2 ^ (i - 1 + j))⟩ := by
  intro k
  induction k with
  | zero => intro i hk _; exact absurd hk (by omega)
  | succ k ih =>
    intro i _ hi
    match k with
    | 0 =>
      simp [withRetryGo, hfn i]
    | k' + 1 =>
      have hrec := ih (i + 1) (by omega) (by omega)
      have hsl : (List.range (k' + 1 + 1 - 1)).map (fun j => base * 2 ^ (i - 1 + j)) =
          base * 2 ^ (i - 1) ::
            (List.range (k' + 1 - 1)).map (fun j => base * 2 ^ (i + 1 - 1 + j)) := by
        simp only [Nat.add_sub_cancel]
        rw [List.range_succ_eq_map, List.map_cons, List.map_map, List.cons.injEq]
        constructor
        · norm_num
        · apply List.map_congr_left
          intro j _
          simp only [Function.comp_apply]
          congr 1
          congr 1
          omega
      simp only [withRetryGo, hfn i, hrec]
      rw [RetryResult.mk.injEq]
      refine ⟨?_, rfl, hsl.symm⟩
      congr 3
      omega

/-- C1: with `maxAttempts = n ≥ 1` and an operation failing on every attempt,
`withRetry` invokes the operation exactly `n` times, performs the `n-1`
backoff sleeps `base*2^0, base*2^1, ..., base*2^(n-2)` in order (none after
the final attempt), and raises exactly the failure observed on the last
(`n`-th) attempt. -/
theorem withRetry_permanentFailure {ε α : Type} (n base : Nat) (hn : 1 ≤ n)
    (fn : Nat → Except ε α) (errf : Nat → ε)
    (hfn : ∀ j, fn j = .error (errf j)) :
    withRetry fn n base =
      ⟨.error (some (errf n)), n,
        (List.range (n - 1)).map (fun j => base * 2 ^ j)⟩ := by
  have h := withRetryGo_allFail errf fn hfn base n 1 hn (le_refl 1)
  show withRetryGo fn base 1 n = _
  rw [h, RetryResult.mk.injEq]
  refine ⟨by congr 3; omega, rfl, ?_⟩
  apply List.map_congr_left
  intro j _
  norm_num

/-- Witness for C1 at `n = 3`, `base = 1000` and the operation failing with
the attempt number as error: 3 attempts, sleeps `[1000, 2000]`, final error
that of attempt 3. -/
theorem withRetry_permanentFailure_witness :
    withRetry (fun j => (.error j : Except Nat Unit)) 3 1000 =
      ⟨.error (some 3), 3, [1000, 2000]⟩ := by
  have h := withRetry_permanentFailure 3 1000 (by norm_num)
      (fun j => (.error j : Except Nat Unit)) (fun j => j) (fun _ => rfl)
  rw [h]
  rfl

/-! ## Process Runner (`gitCmd`, backup.js lines 82-92)

`gitCmd(args, cwd)` spawns `git args` in `cwd`, starts a `setTimeout` timer
of `config.gitTimeoutMs`; the first of {spawn `error` event, `close` event,
timer} decides the outcome.  On the timer path the process is killed with
SIGKILL and the promise rejects with a timeout error; on the event paths
`clearTimeout` cancels the timer and the promise settles (resolve on exit
code 0, reject otherwise).  A promise settles only once, so the first
settlement is the outcome.

We embed the external process behaviour as the first event the child ever
emits together with its time (ms since spawn): either an `error` event
(spawn failure), a `close` event with an exit code, or no event at all.
The timer wins the race exactly when no event happens strictly before
`timeoutMs`. -/

/-- The first event emitted by the spawned child process: spawn failure at
time `t`, exit with `code` at time `t`, or no event ever (process runs
forever). -/
inductive ProcEvent where
  | errored (msg : String) (t : Nat)
  | closed (code : Nat) (t : Nat)
  | never
deriving DecidableEq, Repr

/-- The four terminal outcomes of one `gitCmd` call. -/
inductive GitOutcome where
  | success
  | nonZeroExit (code : Nat)
  | spawnError (msg : String)
  | timeout
deriving DecidableEq, Repr

/-- Full observable record of one `gitCmd` call: the outcome, whether
`clearTimeout` ran, whether the timer fired, and whether the child was
killed with SIGKILL. -/
structure GitRun where
  outcome : GitOutcome
  timerCleared : Bool
  timerFired : Bool
  killed : Bool
deriving DecidableEq, Repr

/-- `gitCmd` (backup.js lines 82-92) as a function of the timeout and the
child's first event.  An event strictly before `timeoutMs` wins the race
and clears the timer; otherwise the timer fires, kills the child and
rejects with the timeout error. -/
def gitCmdRun (timeoutMs : Nat) (ev : ProcEvent) : GitRun :=
  match ev with
  | .errored msg t =>
    if t < timeoutMs then ⟨.spawnError msg, true, false, false⟩
    else ⟨.timeout, false, true, true⟩
  | .closed code t =>
    if t < timeoutMs then
      if code = 0 then ⟨.success, true, false, false⟩
      else ⟨.nonZeroExit code, true, false, false⟩
    else ⟨.timeout, false, true, true⟩
  | .never => ⟨.timeout, false, true, true⟩

/-- The rejection message of `gitCmd` on timeout:
`git ${args[0]} timed out`. -/
def gitTimeoutMsg (args : List String) : String :=
  "git " ++ args.headD "undefined" ++ " timed out"

/-- The rejection message of `gitCmd` on a non-zero exit:
`git ${args.flatten(' ')} exited ${code}`. -/
def gitExitMsg (args : List String) (code : Nat) : String :=
  "git " ++ String.intercalate " " args ++ " exited " ++ toString code

/-- The settled promise of `gitCmd` as an `Except` over the error message,
as observed by `withRetry`/callers (`e.message`). -/
def gitOutcomeExcept (args : List String) : GitOutcome → Except String Unit
  | .success => .ok ()
  | .nonZeroExit code => .error (gitExitMsg args code)
  | .spawnError msg => .error msg
  | .timeout => .error (gitTimeoutMsg args)

/-- `gitCmd` result as seen by its caller. -/
def gitCmd (timeoutMs : Nat) (args : List String) (ev : ProcEvent) :
    Except String Unit :=
  gitOutcomeExcept args (gitCmdRun timeoutMs ev).outcome

/-- C2: every `gitCmd` call has exactly one of the four terminal outcomes,
characterised by the child's first event versus the timeout: exit code 0
before the timeout is success, non-zero exit code `c` before the timeout is
`NonZeroExit c`, spawn failure before the timeout is `SpawnError` with the
underlying cause, and in every other case the timer fires first, the child
is killed with SIGKILL and the outcome is `Timeout`; in every case the
timer was cleared or has already fired (never both), so no late termination
can occur. -/
theorem gitCmdRun_cases (timeoutMs : Nat) (ev : ProcEvent) :
    ((gitCmdRun timeoutMs ev).timerCleared = true ∨
      (gitCmdRun timeoutMs ev).timerFired = true) ∧
    ¬((gitCmdRun timeoutMs ev).timerCleared = true ∧
      (gitCmdRun timeoutMs ev).timerFired = true) ∧
    ((gitCmdRun timeoutMs ev).killed = true ↔
      (gitCmdRun timeoutMs ev).outcome = .timeout) ∧
    (∀ code t, ev = .closed code t → t < timeoutMs → code = 0 →
      gitCmdRun timeoutMs ev = ⟨.success, true, false, false⟩) ∧
    (∀ code t, ev = .closed code t → t < timeoutMs → code ≠ 0 →
      gitCmdRun timeoutMs ev = ⟨.nonZeroExit code, true, false, false⟩) ∧
    (∀ msg t, ev = .errored msg t → t < timeoutMs →
      gitCmdRun timeoutMs ev = ⟨.spawnError msg, true, false, false⟩) ∧
    (∀ msg t, ev = .errored msg t → timeoutMs ≤ t →
      gitCmdRun timeoutMs ev = ⟨.timeout, false, true, true⟩) ∧
    (∀ code t, ev = .closed code t → timeoutMs ≤ t →
      gitCmdRun timeoutMs ev = ⟨.timeout, false, true, true⟩) ∧
    (ev = .never → gitCmdRun timeoutMs ev = ⟨.timeout, false, true, true⟩) := by
  cases ev with
  | errored msg t =>
    rcases Nat.lt_or_ge t timeoutMs with h | h
    · simp only [gitCmdRun, if_pos h]
      simp only [GitRun.mk.injEq]
      refine ⟨Or.inl trivial, by simp, by simp, by simp, by simp, by simp, ?_,
        by simp, by simp⟩
      intro msg2 t2 he hle
      rw [ProcEvent.errored.injEq] at he
      omega
    · simp only [gitCmdRun, if_neg (show ¬ t < timeoutMs by omega)]
      simp only [GitRun.mk.injEq]
      refine ⟨Or.inr trivial, by simp, by simp, by simp, by simp, ?_, by simp,
        by simp, by simp⟩
      intro msg2 t2 he hlt
      rw [ProcEvent.errored.injEq] at he
      omega
  | closed code t =>
    by_cases h : t < timeoutMs
    · by_cases hc : code = 0 <;> simp_all [gitCmdRun]
    · simp only [gitCmdRun, if_neg (show ¬ t < timeoutMs by omega)]
      simp only [GitRun.mk.injEq]
      refine ⟨Or.inr trivial, by simp, by simp, ?_, ?_, by simp, by simp,
        by simp, by simp⟩
      · intro c2 t2 he hlt _
        rw [ProcEvent.closed.injEq] at he
        omega
      · intro c2 t2 he hlt _
        rw [ProcEvent.closed.injEq] at he
        omega
  | never => simp [gitCmdRun]

/-- Witness for C2: a child exiting with code 2 at 1 ms under a 5-minute
timeout yields `NonZeroExit 2` with the timer cleared and not fired. -/
theorem gitCmdRun_cases_witness :
    gitCmdRun 300000 (.closed 2 1) = ⟨.nonZeroExit 2, true, false, false⟩ := by
  have h := (gitCmdRun_cases 300000 (.closed 2 1)).2.2.2.2.1 2 1 rfl
    (by norm_num) (by norm_num)
  exact h

/-! ## Configuration, repositories and the git environment

`config` (backup.js lines 9-19) bundles credentials, directories and the
retry/timeout policy.  Path joins, URL building and `encodeURIComponent`
are kept as string operations; `encode` is the embedding of
`encodeURIComponent` (an opaque injective string transformation whose
details the claims never need, so it is a parameter of the model carried
in the configuration). -/

/-- The relevant fields of `config` (backup.js lines 9-19), plus the
embedding `encode` of `encodeURIComponent`. -/
structure Config where
  user : String
  appPassword : String
  workspace : String
  backupDir : String
  dirname : String
  maxRetries : Nat
  retryBaseMs : Nat
  gitTimeoutMs : Nat
  encode : String → String

/-- A repository descriptor as consumed from `data.values`:
`{slug, name}` (backup.js line 115 destructures exactly these). -/
structure Repo where
  slug : String
  name : String
deriving DecidableEq, Repr

/-- One subprocess invocation: the argument list passed to `git` and the
working directory (`cwd`). -/
structure GitCall where
  args : List String
  cwd : String
deriving DecidableEq, Repr

/-- The state of one bare mirror directory: the configured origin URL and
an abstract snapshot of its object/ref content. -/
structure Mirror where
  originUrl : String
  refs : Nat
deriving DecidableEq, Repr

/-- The filesystem under the backup root: which paths exist and, when they
do, the mirror they contain. -/
def Fs : Type := String → Option Mirror

/-- The external git subprocess behaviour: for each invocation (call) and
each 1-based attempt number, the first event the child emits. -/
def GitEnv : Type := GitCall → Nat → ProcEvent

/-- `target = path.flatten(config.backupDir, slug + ".git")`
(backup.js line 116). -/
def targetPath (cfg : Config) (slug : String) : String :=
  cfg.backupDir ++ "/" ++ slug ++ ".git"

/-- The authenticated clone/fetch URL (backup.js lines 117-119):
`https://<enc user>:<enc password>@bitbucket.org/<workspace>/<slug>.git`. -/
def authUrl (cfg : Config) (slug : String) : String :=
  "https://" ++ cfg.encode cfg.user ++ ":" ++ cfg.encode cfg.appPassword ++
    "@bitbucket.org/" ++ cfg.workspace ++ "/" ++ slug ++ ".git"

/-- The `remote set-url` invocation of the update branch
(backup.js line 123). -/
def setUrlCall (cfg : Config) (slug : String) : GitCall :=
  ⟨["remote", "set-url", "origin", authUrl cfg slug], targetPath cfg slug⟩

/-- The `fetch --all --prune` invocation of the update branch
(backup.js line 124). -/
def fetchCall (cfg : Config) (slug : String) : GitCall :=
  ⟨["fetch", "--all", "--prune"], targetPath cfg slug⟩

/-- The `clone --mirror` invocation of the clone branch
(backup.js line 128); its cwd is `__dirname`. -/
def cloneCall (cfg : Config) (slug : String) : GitCall :=
  ⟨["clone", "--mirror", authUrl cfg slug, targetPath cfg slug], cfg.dirname⟩

/-- `gitWithRetry(args, cwd, desc)` (backup.js line 95): `gitCmd` wrapped in
`withRetry` under the configured policy. -/
def gitWithRetry (cfg : Config) (env : GitEnv) (call : GitCall) :
    RetryResult String Unit :=
  withRetry (fun i => gitCmd cfg.gitTimeoutMs call.args (env call i))
    cfg.maxRetries cfg.retryBaseMs

/-- Modelled from the spec: the effect of a successful external git
subprocess on the mirror filesystem (git itself is not part of src/).
Per the spec's external-interface section and glossary: `clone --mirror url
target` creates a bare mirror at `target` tracking the remote content;
`remote set-url origin url` rewrites the stored origin URL; `fetch --all
--prune` makes the mirror's refs equal to the remote's current content
(`remote` is the abstract snapshot of the upstream repository). -/
def applyGit (remote : Nat) (call : GitCall) (fs : Fs) : Fs :=
  match call.args with
  | ["clone", "--mirror", url, target] =>
    fun p => if p = target then some ⟨url, remote⟩ else fs p
  | ["remote", "set-url", "origin", url] =>
    fun p => if p = call.cwd then (fs p).map (fun m => ⟨url, m.refs⟩) else fs p
  | ["fetch", "--all", "--prune"] =>
    fun p => if p = call.cwd then (fs p).map (fun m => ⟨m.originUrl, remote⟩)
             else fs p
  | _ => fs

/-! ## Mirror Synchronizer (`backupRepository`, backup.js lines 115-131)

One `fs.pathExists(target)` check selects the branch: present → `set-url`
then `fetch`, each via `gitWithRetry`, the second only reached when the
first resolves (an exhausted retry propagates the rejection); absent →
`clone --mirror` via `gitWithRetry`.  The trace records, in order, every
`gitWithRetry` invocation made, and `fsChecks` counts the `pathExists`
probes. -/

/-- Observable result of one `backupRepository` call: outcome, the ordered
`gitWithRetry` invocations, the number of filesystem existence checks, and
the filesystem afterwards. -/
structure SyncResult where
  result : Except (Option String) Unit
  calls : List GitCall
  fsChecks : Nat
  fs : Fs

/-- `backupRepository({slug, name})` (backup.js lines 115-131). -/
def backupRepository (cfg : Config) (env : GitEnv) (remote : Nat) (fs : Fs)
    (repo : Repo) : SyncResult :=
  let target := targetPath cfg repo.slug
  if (fs target).isSome then
    let r1 := gitWithRetry cfg env (setUrlCall cfg repo.slug)
    match r1.result with
    | .error e => ⟨.error e, [setUrlCall cfg repo.slug], 1, fs⟩
    | .ok _ =>
      let fs1 := applyGit remote (setUrlCall cfg repo.slug) fs
      let r2 := gitWithRetry cfg env (fetchCall cfg repo.slug)
      match r2.result with
      | .error e =>
        ⟨.error e, [setUrlCall cfg repo.slug, fetchCall cfg repo.slug], 1, fs1⟩
      | .ok _ =>
        ⟨.ok (), [setUrlCall cfg repo.slug, fetchCall cfg repo.slug], 1,
          applyGit remote (fetchCall cfg repo.slug) fs1⟩
  else
    let r := gitWithRetry cfg env (cloneCall cfg repo.slug)
    match r.result with
    | .error e => ⟨.error e, [cloneCall cfg repo.slug], 1, fs⟩
    | .ok _ =>
      ⟨.ok (), [cloneCall cfg repo.slug], 1,
        applyGit remote (cloneCall cfg repo.slug) fs⟩

/-- If the very first attempt succeeds and the budget allows at least one
attempt, `withRetry` returns that success after exactly one invocation and
no sleeps. -/
theorem withRetry_firstOk {ε α : Type} (fn : Nat → Except ε α)
    (mr base : Nat) (hmr : 1 ≤ mr) (a : α) (h1 : fn 1 = .ok a) :
    withRetry fn mr base = ⟨.ok a, 1, []⟩ := by
  match mr, hmr with
  | k + 1, _ =>
    show withRetryGo fn base 1 (k + 1) = _
    simp [withRetryGo, h1]

/-- Two git invocations whose argument lists start differently are distinct
invocations. -/
theorem gitCall_ne_of_headD (c d : GitCall)
    (h : c.args.headD "" ≠ d.args.headD "") : c ≠ d :=
  fun he => h (congrArg (fun x => x.args.headD "") he)

/-- A clone invocation is never a set-url invocation. -/
theorem cloneCall_ne_setUrlCall (cfg cfg2 : Config) (s s2 : String) :
    cloneCall cfg s ≠ setUrlCall cfg2 s2 := by
  apply gitCall_ne_of_headD
  show ("clone" : String) ≠ "remote"
  decide

/-- A clone invocation is never a fetch invocation. -/
theorem cloneCall_ne_fetchCall (cfg cfg2 : Config) (s s2 : String) :
    cloneCall cfg s ≠ fetchCall cfg2 s2 := by
  apply gitCall_ne_of_headD
  show ("clone" : String) ≠ "fetch"
  decide

/-- A fetch invocation is never a set-url invocation. -/
theorem fetchCall_ne_setUrlCall (cfg cfg2 : Config) (s s2 : String) :
    fetchCall cfg s ≠ setUrlCall cfg2 s2 := by
  apply gitCall_ne_of_headD
  show ("fetch" : String) ≠ "remote"
  decide

/-- Clone branch, retries exhausted: the only invocation is the clone and
the error of its last attempt propagates; the filesystem is untouched. -/
theorem backupRepository_absent_err (cfg : Config) (env : GitEnv)
    (remote : Nat) (fs : Fs) (repo : Repo) (e : Option String)
    (h : fs (targetPath cfg repo.slug) = none)
    (he : (gitWithRetry cfg env (cloneCall cfg repo.slug)).result = .error e) :
    backupRepository cfg env remote fs repo =
      ⟨.error e, [cloneCall cfg repo.slug], 1, fs⟩ := by
  simp [backupRepository, h, he]

/-- Clone branch, clone succeeds: the only invocation is the clone and the
mirror is created at the target. -/
theorem backupRepository_absent_ok (cfg : Config) (env : GitEnv)
    (remote : Nat) (fs : Fs) (repo : Repo)
    (h : fs (targetPath cfg repo.slug) = none)
    (hok : (gitWithRetry cfg env (cloneCall cfg repo.slug)).result = .ok ()) :
    backupRepository cfg env remote fs repo =
      ⟨.ok (), [cloneCall cfg repo.slug], 1,
        applyGit remote (cloneCall cfg repo.slug) fs⟩ := by
  simp [backupRepository, h, hok]

/-- Update branch, set-url retries exhausted: only the set-url was invoked,
its error propagates (fetch is never reached). -/
theorem backupRepository_present_err1 (cfg : Config) (env : GitEnv)
    (remote : Nat) (fs : Fs) (repo : Repo) (m : Mirror) (e : Option String)
    (h : fs (targetPath cfg repo.slug) = some m)
    (h1 : (gitWithRetry cfg env (setUrlCall cfg repo.slug)).result =
      .error e) :
    backupRepository cfg env remote fs repo =
      ⟨.error e, [setUrlCall cfg repo.slug], 1, fs⟩ := by
  simp [backupRepository, h, h1]

/-- Update branch, set-url succeeds but fetch retries are exhausted: the
invocations are set-url then fetch, the fetch error propagates. -/
theorem backupRepository_present_err2 (cfg : Config) (env : GitEnv)
    (remote : Nat) (fs : Fs) (repo : Repo) (m : Mirror) (e : Option String)
    (h : fs (targetPath cfg repo.slug) = some m)
    (h1 : (gitWithRetry cfg env (setUrlCall cfg repo.slug)).result = .ok ())
    (h2 : (gitWithRetry cfg env (fetchCall cfg repo.slug)).result =
      .error e) :
    backupRepository cfg env remote fs repo =
      ⟨.error e, [setUrlCall cfg repo.slug, fetchCall cfg repo.slug], 1,
        applyGit remote (setUrlCall cfg repo.slug) fs⟩ := by
  simp [backupRepository, h, h1, h2]

/-- Update branch, both subprocesses succeed: the invocations are set-url
then fetch and both effects apply in that order. -/
theorem backupRepository_present_ok (cfg : Config) (env : GitEnv)
    (remote : Nat) (fs : Fs) (repo : Repo) (m : Mirror)
    (h : fs (targetPath cfg repo.slug) = some m)
    (h1 : (gitWithRetry cfg env (setUrlCall cfg repo.slug)).result = .ok ())
    (h2 : (gitWithRetry cfg env (fetchCall cfg repo.slug)).result = .ok ()) :
    backupRepository cfg env remote fs repo =
      ⟨.ok (), [setUrlCall cfg repo.slug, fetchCall cfg repo.slug], 1,
        applyGit remote (fetchCall cfg repo.slug)
          (applyGit remote (setUrlCall cfg repo.slug) fs)⟩ := by
  simp [backupRepository, h, h1, h2]

/-- Evaluating the set-url effect at the target path. -/
theorem applyGit_setUrl_at (remote : Nat) (cfg : Config) (slug : String)
    (fs : Fs) :
    applyGit remote (setUrlCall cfg slug) fs (targetPath cfg slug) =
      (fs (targetPath cfg slug)).map (fun m => ⟨authUrl cfg slug, m.refs⟩) := by
  simp [applyGit, setUrlCall]

/-- Evaluating the fetch effect at the target path. -/
theorem applyGit_fetch_at (remote : Nat) (cfg : Config) (slug : String)
    (fs : Fs) :
    applyGit remote (fetchCall cfg slug) fs (targetPath cfg slug) =
      (fs (targetPath cfg slug)).map (fun m => ⟨m.originUrl, remote⟩) := by
  simp [applyGit, fetchCall]

/-- C3: `backupRepository` makes a single existence check on
`<backupDir>/<slug>.git` and follows exactly one of two branches: if the
path does not exist, its only subprocess invocation (via the retry
executor) is the mirror clone — never set-url or fetch; if the path
exists, it invokes set-url first and — as soon as the set-url retry wrapper
resolves — fetch second, never clone (when the set-url retries are
exhausted, the trace is the set-url alone and the failure propagates before
any fetch). -/
theorem backupRepository_branching (cfg : Config) (env : GitEnv)
    (remote : Nat) (fs : Fs) (repo : Repo) :
    (backupRepository cfg env remote fs repo).fsChecks = 1 ∧
    (fs (targetPath cfg repo.slug) = none →
      (backupRepository cfg env remote fs repo).calls =
        [cloneCall cfg repo.slug] ∧
      setUrlCall cfg repo.slug ∉ (backupRepository cfg env remote fs repo).calls ∧
      fetchCall cfg repo.slug ∉ (backupRepository cfg env remote fs repo).calls) ∧
    (∀ m, fs (targetPath cfg repo.slug) = some m →
      cloneCall cfg repo.slug ∉ (backupRepository cfg env remote fs repo).calls ∧
      ((gitWithRetry cfg env (setUrlCall cfg repo.slug)).result = .ok () →
        (backupRepository cfg env remote fs repo).calls =
          [setUrlCall cfg repo.slug, fetchCall cfg repo.slug]) ∧
      (∀ e, (gitWithRetry cfg env (setUrlCall cfg repo.slug)).result =
          .error e →
        (backupRepository cfg env remote fs repo).calls =
          [setUrlCall cfg repo.slug])) := by
  cases hfs : fs (targetPath cfg repo.slug) with
  | none =>
    rcases hr : (gitWithRetry cfg env (cloneCall cfg repo.slug)).result with
      e | u
    · rw [backupRepository_absent_err cfg env remote fs repo e hfs hr]
      refine ⟨rfl, fun _ => ⟨rfl, ?_, ?_⟩, fun m hm => by simp [hfs] at hm⟩
      · simp [(cloneCall_ne_setUrlCall cfg cfg repo.slug repo.slug).symm]
      · simp [(cloneCall_ne_fetchCall cfg cfg repo.slug repo.slug).symm]
    · cases u
      rw [backupRepository_absent_ok cfg env remote fs repo hfs hr]
      refine ⟨rfl, fun _ => ⟨rfl, ?_, ?_⟩, fun m hm => by simp [hfs] at hm⟩
      · simp [(cloneCall_ne_setUrlCall cfg cfg repo.slug repo.slug).symm]
      · simp [(cloneCall_ne_fetchCall cfg cfg repo.slug repo.slug).symm]
  | some m =>
    rcases h1 : (gitWithRetry cfg env (setUrlCall cfg repo.slug)).result with
      e1 | u1
    · rw [backupRepository_present_err1 cfg env remote fs repo m e1 hfs h1]
      refine ⟨rfl, fun hn => by simp [hfs] at hn, fun m2 _ => ⟨?_, ?_, ?_⟩⟩
      · simp [cloneCall_ne_setUrlCall cfg cfg repo.slug repo.slug]
      · intro hok; exact Except.noConfusion hok
      · intro e he; rfl
    · cases u1
      rcases h2 : (gitWithRetry cfg env (fetchCall cfg repo.slug)).result with
        e2 | u2
      · rw [backupRepository_present_err2 cfg env remote fs repo m e2 hfs h1 h2]
        refine ⟨rfl, fun hn => by simp [hfs] at hn, fun m2 _ => ⟨?_, ?_, ?_⟩⟩
        · simp [cloneCall_ne_setUrlCall cfg cfg repo.slug repo.slug,
            cloneCall_ne_fetchCall cfg cfg repo.slug repo.slug]
        · intro _; rfl
        · intro e he; exact Except.noConfusion he
      · cases u2
        rw [backupRepository_present_ok cfg env remote fs repo m hfs h1 h2]
        refine ⟨rfl, fun hn => by simp [hfs] at hn, fun m2 _ => ⟨?_, ?_, ?_⟩⟩
        · simp [cloneCall_ne_setUrlCall cfg cfg repo.slug repo.slug,
            cloneCall_ne_fetchCall cfg cfg repo.slug repo.slug]
        · intro _; rfl
        · intro e he; exact Except.noConfusion he

/-- A concrete configuration for witnesses: the shipped defaults
(3 retries, 1000 ms base delay, 5-minute git timeout) with identity
URL-encoding. -/
def cfgEx : Config :=
  ⟨"user", "pass", "ws", "/app/downloads", "/app", 3, 1000, 300000,
    fun s => s⟩

/-- A git environment in which every child exits 0 immediately. -/
def envOk : GitEnv := fun _ _ => .closed 0 0

/-- Witness for C3 at a concrete absent target: one existence check, and
the single invocation is the mirror clone. -/
theorem backupRepository_branching_witness :
    (backupRepository cfgEx envOk 0 (fun _ => none) ⟨"r1", "R1"⟩).fsChecks
        = 1 ∧
    (backupRepository cfgEx envOk 0 (fun _ => none) ⟨"r1", "R1"⟩).calls =
      [cloneCall cfgEx "r1"] :=
  ⟨(backupRepository_branching cfgEx envOk 0 (fun _ => none) ⟨"r1", "R1"⟩).1,
    ((backupRepository_branching cfgEx envOk 0 (fun _ => none)
      ⟨"r1", "R1"⟩).2.1 rfl).1⟩

/-- C9: on an already-mirrored repository with no upstream changes (the
remote snapshot is the same across both runs) and healthy subprocesses,
two successive `backupRepository` runs invoke clone zero times and fetch
exactly twice (once per run, each time after a set-url), and the mirror
content at the target after the second run equals that after the first. -/
theorem backupRepository_idempotent (cfg : Config) (env : GitEnv)
    (remote : Nat) (fs : Fs) (repo : Repo) (m : Mirror)
    (hmr : 1 ≤ cfg.maxRetries)
    (hm : fs (targetPath cfg repo.slug) = some m)
    (hok : ∀ call i, gitCmd cfg.gitTimeoutMs call.args (env call i) =
      .ok ()) :
    (backupRepository cfg env remote fs repo).calls =
      [setUrlCall cfg repo.slug, fetchCall cfg repo.slug] ∧
    (backupRepository cfg env remote
        (backupRepository cfg env remote fs repo).fs repo).calls =
      [setUrlCall cfg repo.slug, fetchCall cfg repo.slug] ∧
    cloneCall cfg repo.slug ∉
      (backupRepository cfg env remote fs repo).calls ++
        (backupRepository cfg env remote
          (backupRepository cfg env remote fs repo).fs repo).calls ∧
    ((backupRepository cfg env remote fs repo).calls ++
        (backupRepository cfg env remote
          (backupRepository cfg env remote fs repo).fs repo).calls).count
      (fetchCall cfg repo.slug) = 2 ∧
    (backupRepository cfg env remote fs repo).fs (targetPath cfg repo.slug) =
      some ⟨authUrl cfg repo.slug, remote⟩ ∧
    (backupRepository cfg env remote
        (backupRepository cfg env remote fs repo).fs repo).fs
      (targetPath cfg repo.slug) =
      (backupRepository cfg env remote fs repo).fs
        (targetPath cfg repo.slug) := by
  have hgw : ∀ call, gitWithRetry cfg env call = ⟨.ok (), 1, []⟩ :=
    fun call => withRetry_firstOk _ _ _ hmr () (hok call 1)
  have h1 : (gitWithRetry cfg env (setUrlCall cfg repo.slug)).result =
      .ok () := by rw [hgw]
  have h2 : (gitWithRetry cfg env (fetchCall cfg repo.slug)).result =
      .ok () := by rw [hgw]
  have hs1 := backupRepository_present_ok cfg env remote fs repo m hm h1 h2
  have hfs1 : (backupRepository cfg env remote fs repo).fs
      (targetPath cfg repo.slug) = some ⟨authUrl cfg repo.slug, remote⟩ := by
    rw [hs1]
    show applyGit remote (fetchCall cfg repo.slug)
      (applyGit remote (setUrlCall cfg repo.slug) fs)
      (targetPath cfg repo.slug) = _
    rw [applyGit_fetch_at, applyGit_setUrl_at, hm]
    rfl
  have hs2 := backupRepository_present_ok cfg env remote
    (backupRepository cfg env remote fs repo).fs repo
    ⟨authUrl cfg repo.slug, remote⟩ hfs1 h1 h2
  have hfs2 : (backupRepository cfg env remote
      (backupRepository cfg env remote fs repo).fs repo).fs
      (targetPath cfg repo.slug) = some ⟨authUrl cfg repo.slug, remote⟩ := by
    rw [hs2]
    show applyGit remote (fetchCall cfg repo.slug)
      (applyGit remote (setUrlCall cfg repo.slug)
        (backupRepository cfg env remote fs repo).fs)
      (targetPath cfg repo.slug) = _
    rw [applyGit_fetch_at, applyGit_setUrl_at, hfs1]
    rfl
  have hc1 : (backupRepository cfg env remote fs repo).calls =
      [setUrlCall cfg repo.slug, fetchCall cfg repo.slug] := by rw [hs1]
  have hc2 : (backupRepository cfg env remote
      (backupRepository cfg env remote fs repo).fs repo).calls =
      [setUrlCall cfg repo.slug, fetchCall cfg repo.slug] := by rw [hs2]
  refine ⟨hc1, hc2, ?_, ?_, hfs1, by rw [hfs1, hfs2]⟩
  · rw [hc1, hc2]
    simp [cloneCall_ne_setUrlCall cfg cfg repo.slug repo.slug,
      cloneCall_ne_fetchCall cfg cfg repo.slug repo.slug]
  · rw [hc1, hc2]
    simp [List.count_cons, List.count_nil,
      fetchCall_ne_setUrlCall cfg cfg repo.slug repo.slug]

/-- Witness for C9 at a concrete present mirror and healthy subprocesses. -/
theorem backupRepository_idempotent_witness :
    (backupRepository cfgEx envOk 7
        (fun p => if p = targetPath cfgEx "r1" then some ⟨"old", 5⟩ else none)
        ⟨"r1", "R1"⟩).calls =
      [setUrlCall cfgEx "r1", fetchCall cfgEx "r1"] ∧
    (backupRepository cfgEx envOk 7
        (backupRepository cfgEx envOk 7
          (fun p => if p = targetPath cfgEx "r1" then some ⟨"old", 5⟩
                    else none)
          ⟨"r1", "R1"⟩).fs ⟨"r1", "R1"⟩).fs (targetPath cfgEx "r1") =
      (backupRepository cfgEx envOk 7
        (fun p => if p = targetPath cfgEx "r1" then some ⟨"old", 5⟩ else none)
        ⟨"r1", "R1"⟩).fs (targetPath cfgEx "r1") := by
  have h := backupRepository_idempotent cfgEx envOk 7
    (fun p => if p = targetPath cfgEx "r1" then some ⟨"old", 5⟩ else none)
    ⟨"r1", "R1"⟩ ⟨"old", 5⟩ (by decide) (by simp) (fun call i => rfl)
  exact ⟨h.1, h.2.2.2.2.2⟩

/-! ## Repository Lister (`getAllRepositories`, backup.js lines 98-112)

Each page fetch is `withRetry(() => axios.get(url, ...), desc)`; the loop
`while(url)` pushes `data.values` onto the accumulator and follows
`data.next` until it is absent.  The remote API is embedded as a function
from URL and 1-based attempt number to a page or an error; the loop is
given explicit fuel, `none` meaning the loop has not terminated within that
fuel.  Alongside the result we return the list of URLs fetched, in
order. -/

/-- One page of the listing response: `values` and the optional `next`
cursor URL. -/
structure Page where
  values : List Repo
  next : Option String
deriving DecidableEq, Repr

/-- The remote listing endpoint: URL and 1-based attempt number to
response. -/
def Api : Type := String → Nat → Except String Page

/-- One page fetch wrapped in the retry executor
(backup.js lines 103-106). -/
def pageFetch (cfg : Config) (api : Api) (url : String) :
    RetryResult String Page :=
  withRetry (fun i => api url i) cfg.maxRetries cfg.retryBaseMs

/-- The initial listing URL (backup.js line 100):
`https://api.bitbucket.org/2.0/repositories/<workspace>?pagelen=100`. -/
def startUrl (cfg : Config) : String :=
  "https://api.bitbucket.org/2.0/repositories/" ++ cfg.workspace ++
    "?pagelen=100"

/-- The `while(url)` pagination loop (backup.js lines 102-109) with fuel.
Returns the loop outcome (`none` if the fuel ran out before the loop
ended, otherwise the propagated error or the accumulated list) and the
URLs fetched in order. -/
def getAllRepositoriesGo (cfg : Config) (api : Api) :
    Nat → String → List Repo →
      Option (Except (Option String) (List Repo)) × List String
  | 0, _, _ => (none, [])
  | fuel + 1, url, acc =>
    match (pageFetch cfg api url).result with
    | .error e => (some (.error e), [url])
    | .ok page =>
      match page.next with
      | none => (some (.ok (acc ++ page.values)), [url])
      | some url2 =>
        let r := getAllRepositoriesGo cfg api fuel url2 (acc ++ page.values)
        (r.1, url :: r.2)

/-- `getAllRepositories()` (backup.js lines 98-112): the loop from the
start URL with an empty accumulator. -/
def getAllRepositories (cfg : Config) (api : Api) (fuel : Nat) :
    Option (Except (Option String) (List Repo)) × List String :=
  getAllRepositoriesGo cfg api fuel (startUrl cfg) []

/-- A finite cursor chain: starting at a URL, every page fetch succeeds
(within retries), each page's `next` points at the following entry, and
the last page carries no `next` cursor. -/
inductive Chain (cfg : Config) (api : Api) : String → List (String × Page) → Prop where
  | last (u : String) (p : Page)
      (hfetch : (pageFetch cfg api u).result = .ok p)
      (hnone : p.next = none) :
      Chain cfg api u [(u, p)]
  | cons (u : String) (p : Page) (u2 : String) (rest : List (String × Page))
      (hfetch : (pageFetch cfg api u).result = .ok p)
      (hnext : p.next = some u2)
      (hrest : Chain cfg api u2 rest) :
      Chain cfg api u ((u, p) :: rest)

/-- `u2` is reachable from `u` in `n` successful cursor steps. -/
inductive Reaches (cfg : Config) (api : Api) : String → String → Nat → Prop where
  | refl (u : String) : Reaches cfg api u u 0
  | step (u : String) (p : Page) (u2 u3 : String) (n : Nat)
      (hfetch : (pageFetch cfg api u).result = .ok p)
      (hnext : p.next = some u2)
      (h : Reaches cfg api u2 u3 n) : Reaches cfg api u u3 (n + 1)

/-- A page fetch whose first attempt succeeds resolves to that page. -/
theorem pageFetch_ok (cfg : Config) (api : Api) (url : String) (p : Page)
    (hmr : 1 ≤ cfg.maxRetries) (h : api url 1 = .ok p) :
    (pageFetch cfg api url).result = .ok p := by
  unfold pageFetch
  rw [withRetry_firstOk (fun i => api url i) cfg.maxRetries cfg.retryBaseMs
    hmr p h]

/-- Along a finite cursor chain the loop, given at least `chain.length`
fuel, fetches exactly the chain's URLs in order and returns the
accumulator extended with the concatenation of the pages' values in page
order. -/
theorem getAllRepositoriesGo_chain (cfg : Config) (api : Api) :
    ∀ chain u, Chain cfg api u chain → ∀ fuel acc, chain.length ≤ fuel →
      getAllRepositoriesGo cfg api fuel u acc =
        (some (.ok (acc ++ (chain.map (fun x => x.2.values)).flatten)),
          chain.map (fun x => x.1)) := by
  intro chain u hc
  induction hc with
  | last u p hfetch hnone =>
    intro fuel acc hlen
    match fuel, hlen with
    | f + 1, _ =>
      simp [getAllRepositoriesGo, hfetch, hnone]
  | cons u p u2 rest hfetch hnext hrest ih =>
    intro fuel acc hlen
    match fuel, hlen with
    | f + 1, hlen =>
      have hf : rest.length ≤ f := by
        simp only [List.length_cons] at hlen
        omega
      simp [getAllRepositoriesGo, hfetch, hnext, ih f (acc ++ p.values) hf,
        List.append_assoc]

/-- C5: when the cursor chain from the start URL is finite and every page
fetch succeeds within its retry budget, `getAllRepositories` loops until
the page with no next cursor and returns the concatenation of all pages'
descriptor arrays, in page order then intra-page order, with no
de-duplication (the result is literally the `join` of the pages). -/
theorem getAllRepositories_pages (cfg : Config) (api : Api)
    (chain : List (String × Page))
    (hc : Chain cfg api (startUrl cfg) chain)
    (fuel : Nat) (hf : chain.length ≤ fuel) :
    getAllRepositories cfg api fuel =
      (some (.ok ((chain.map (fun x => x.2.values)).flatten)),
        chain.map (fun x => x.1)) := by
  have h := getAllRepositoriesGo_chain cfg api chain (startUrl cfg) hc fuel
    [] hf
  simpa [getAllRepositories] using h

/-- A page of `n` distinct descriptors tagged by `tag`. -/
def pageRepos (tag : String) (n : Nat) : List Repo :=
  (List.range n).map (fun k => ⟨tag ++ toString k, tag ++ toString k⟩)

/-- A mock endpoint returning 3 pages of 100, 100 and 7 descriptors, with
no next cursor on the third. -/
def apiEx : Api := fun url _ =>
  if url = startUrl cfgEx then .ok ⟨pageRepos "a" 100, some "u2"⟩
  else if url = "u2" then .ok ⟨pageRepos "b" 100, some "u3"⟩
  else if url = "u3" then .ok ⟨pageRepos "c" 7, none⟩
  else .error "404"

/-- Witness for C5 on the 3-page mock endpoint: the result is the three
pages concatenated in order, 207 descriptors. -/
theorem getAllRepositories_pages_witness :
    (getAllRepositories cfgEx apiEx 3).1 =
      some (.ok (pageRepos "a" 100 ++ (pageRepos "b" 100 ++
        (pageRepos "c" 7 ++ [])))) ∧
    (pageRepos "a" 100 ++ (pageRepos "b" 100 ++
      (pageRepos "c" 7 ++ []))).length = 207 := by
  have hf1 : (pageFetch cfgEx apiEx (startUrl cfgEx)).result =
      .ok ⟨pageRepos "a" 100, some "u2"⟩ :=
    pageFetch_ok cfgEx apiEx _ _ (by decide) rfl
  have hf2 : (pageFetch cfgEx apiEx "u2").result =
      .ok ⟨pageRepos "b" 100, some "u3"⟩ :=
    pageFetch_ok cfgEx apiEx _ _ (by decide) rfl
  have hf3 : (pageFetch cfgEx apiEx "u3").result =
      .ok ⟨pageRepos "c" 7, none⟩ :=
    pageFetch_ok cfgEx apiEx _ _ (by decide) rfl
  have hc : Chain cfgEx apiEx (startUrl cfgEx)
      [(startUrl cfgEx, ⟨pageRepos "a" 100, some "u2"⟩),
       ("u2", ⟨pageRepos "b" 100, some "u3"⟩),
       ("u3", ⟨pageRepos "c" 7, none⟩)] :=
    .cons _ _ _ _ hf1 rfl (.cons _ _ _ _ hf2 rfl (.last _ _ hf3 rfl))
  have h := getAllRepositories_pages cfgEx apiEx _ hc 3 (by simp)
  constructor
  · rw [h]
    simp
  · simp [pageRepos]

/-- If every page fetch succeeds with a next cursor, the loop exhausts any
fuel: it never terminates. -/
theorem getAllRepositoriesGo_neverStops (cfg : Config) (api : Api)
    (hnext : ∀ u, ∃ p u2, (pageFetch cfg api u).result = .ok p ∧
      p.next = some u2) :
    ∀ fuel u acc, (getAllRepositoriesGo cfg api fuel u acc).1 = none := by
  intro fuel
  induction fuel with
  | zero => intro u acc; rfl
  | succ f ih =>
    intro u acc
    obtain ⟨p, u2, hf, hn⟩ := hnext u
    simp [getAllRepositoriesGo, hf, hn, ih]

/-- C10: the pagination loop terminates exactly on finite cursor chains:
if the chain from the start URL reaches a page with no next cursor, then
for any fuel at least the chain length the loop stops, having fetched
exactly the chain's pages (up to and including the cursor-less one); and
if every page carries a next cursor, the loop never terminates (it
exhausts every fuel). -/
theorem getAllRepositories_termination (cfg : Config) (api : Api) :
    (∀ chain, Chain cfg api (startUrl cfg) chain →
      ∀ fuel, chain.length ≤ fuel →
        (∃ res, (getAllRepositories cfg api fuel).1 = some res) ∧
        (getAllRepositories cfg api fuel).2 =
          chain.map (fun x => x.1)) ∧
    ((∀ u, ∃ p u2, (pageFetch cfg api u).result = .ok p ∧
        p.next = some u2) →
      ∀ fuel, (getAllRepositories cfg api fuel).1 = none) := by
  constructor
  · intro chain hc fuel hf
    have h := getAllRepositories_pages cfg api chain hc fuel hf
    rw [h]
    exact ⟨⟨_, rfl⟩, rfl⟩
  · intro hnext fuel
    exact getAllRepositoriesGo_neverStops cfg api hnext fuel (startUrl cfg) []

/-- An endpoint on which every URL yields a page pointing at itself. -/
def apiLoop : Api := fun url _ => .ok ⟨[], some url⟩

/-- Witness for C10: on the 3-page endpoint the loop with fuel 3 stops
after exactly the 3 chain URLs, and on the self-referencing endpoint it
never stops (arbitrary fuel 1000 exhausted). -/
theorem getAllRepositories_termination_witness :
    (∃ res, (getAllRepositories cfgEx apiEx 3).1 = some res) ∧
    (getAllRepositories cfgEx apiEx 3).2 = [startUrl cfgEx, "u2", "u3"] ∧
    (getAllRepositories cfgEx apiLoop 1000).1 = none := by
  have hf1 : (pageFetch cfgEx apiEx (startUrl cfgEx)).result =
      .ok ⟨pageRepos "a" 100, some "u2"⟩ :=
    pageFetch_ok cfgEx apiEx _ _ (by decide) rfl
  have hf2 : (pageFetch cfgEx apiEx "u2").result =
      .ok ⟨pageRepos "b" 100, some "u3"⟩ :=
    pageFetch_ok cfgEx apiEx _ _ (by decide) rfl
  have hf3 : (pageFetch cfgEx apiEx "u3").result =
      .ok ⟨pageRepos "c" 7, none⟩ :=
    pageFetch_ok cfgEx apiEx _ _ (by decide) rfl
  have hc : Chain cfgEx apiEx (startUrl cfgEx)
      [(startUrl cfgEx, ⟨pageRepos "a" 100, some "u2"⟩),
       ("u2", ⟨pageRepos "b" 100, some "u3"⟩),
       ("u3", ⟨pageRepos "c" 7, none⟩)] :=
    .cons _ _ _ _ hf1 rfl (.cons _ _ _ _ hf2 rfl (.last _ _ hf3 rfl))
  have h1 := (getAllRepositories_termination cfgEx apiEx).1 _ hc 3 (by simp)
  have hloopfetch : ∀ u, ∃ p u2,
      (pageFetch cfgEx apiLoop u).result = .ok p ∧ p.next = some u2 := by
    intro u
    exact ⟨⟨[], some u⟩, u, pageFetch_ok cfgEx apiLoop u _ (by decide) rfl, rfl⟩
  have h2 := (getAllRepositories_termination cfgEx apiLoop).2 hloopfetch 1000
  exact ⟨h1.1, h1.2, h2⟩

/-! ## Backup Orchestrator (main IIFE, backup.js lines 134-149)

The main IIFE lists all repositories, fans out one `backupRepository` task
per descriptor with `e => logger.error(...)` attached to each (so
`Promise.all` never rejects), logs a summary with the elapsed seconds and
exits 0; if the listing rejects, the catch block logs the failure and
exits 1.  The concurrent fan-out is embedded as a sequential fold over the
descriptor list: scheduling is single-threaded and cooperative and each
task owns the disjoint target keyed by its slug, so the fold is a faithful
serialisation.  `elapsedMs` is the ambient wall clock difference
(`Date.now() - start`). -/

/-- `err.message` as used in the orchestrator's log lines; the error is
already its message string.  (`none` arises only with `maxRetries = 0`,
where the script would fault reading `.message` of `undefined`.) -/
def errMessage : Option String → String
  | some m => m
  | none => "undefined"

/-- Aggregate state of the per-repository fan-out: final filesystem, slugs
of failed syncs in descriptor order, the per-failure log lines, and how
many sync tasks ran. -/
structure FanOut where
  fs : Fs
  failed : List String
  logs : List String
  attempted : Nat

/-- The fan-out `repos.map(r => backupRepository(r).catch(e => logger.error(
"Backup failed for " + r.slug + ": " + e.message)))` (backup.js line 139):
every failure is caught and logged with its slug, and never stops the
remaining tasks. -/
def runRepos (cfg : Config) (env : GitEnv) (remote : Nat) :
    List Repo → Fs → FanOut
  | [], fs => ⟨fs, [], [], 0⟩
  | r :: rest, fs =>
    let s := backupRepository cfg env remote fs r
    let t := runRepos cfg env remote rest s.fs
    match s.result with
    | .ok _ => ⟨t.fs, t.failed, t.logs, t.attempted + 1⟩
    | .error e =>
      ⟨t.fs, r.slug :: t.failed,
        ("Backup failed for " ++ r.slug ++ ": " ++ errMessage e) :: t.logs,
        t.attempted + 1⟩

/-- Observable outcome of one whole run: the process exit code, how many
sync tasks ran, the failed slugs, the error log lines, how many summary
lines were emitted, the logged elapsed duration, and the final
filesystem. -/
structure RunResult where
  exitCode : Nat
  attempted : Nat
  failed : List String
  logs : List String
  summaryCount : Nat
  duration : Nat
  fs : Fs

/-- The main IIFE (backup.js lines 134-149).  `none` when the pagination
loop does not terminate within `fuel`. -/
def main (cfg : Config) (api : Api) (env : GitEnv) (remote : Nat) (fs : Fs)
    (fuel elapsedMs : Nat) : Option RunResult :=
  match (getAllRepositories cfg api fuel).1 with
  | none => none
  | some (.error e) =>
    some ⟨1, 0, [], ["Backup failed: " ++ errMessage e], 0, elapsedMs, fs⟩
  | some (.ok repos) =>
    let t := runRepos cfg env remote repos fs
    some ⟨0, t.attempted, t.failed, t.logs, 1, elapsedMs, t.fs⟩

/-- Unfolding `runRepos` over a successful head task. -/
theorem runRepos_cons_ok (cfg : Config) (env : GitEnv) (remote : Nat)
    (r : Repo) (rest : List Repo) (fs : Fs) (u : Unit)
    (h : (backupRepository cfg env remote fs r).result = .ok u) :
    runRepos cfg env remote (r :: rest) fs =
      ⟨(runRepos cfg env remote rest
          (backupRepository cfg env remote fs r).fs).fs,
        (runRepos cfg env remote rest
          (backupRepository cfg env remote fs r).fs).failed,
        (runRepos cfg env remote rest
          (backupRepository cfg env remote fs r).fs).logs,
        (runRepos cfg env remote rest
          (backupRepository cfg env remote fs r).fs).attempted + 1⟩ := by
  simp [runRepos, h]

/-- Unfolding `runRepos` over a failing head task: the slug is recorded,
the failure is logged with the slug, and the remaining tasks still run. -/
theorem runRepos_cons_err (cfg : Config) (env : GitEnv) (remote : Nat)
    (r : Repo) (rest : List Repo) (fs : Fs) (e : Option String)
    (h : (backupRepository cfg env remote fs r).result = .error e) :
    runRepos cfg env remote (r :: rest) fs =
      ⟨(runRepos cfg env remote rest
          (backupRepository cfg env remote fs r).fs).fs,
        r.slug :: (runRepos cfg env remote rest
          (backupRepository cfg env remote fs r).fs).failed,
        ("Backup failed for " ++ r.slug ++ ": " ++ errMessage e) ::
          (runRepos cfg env remote rest
            (backupRepository cfg env remote fs r).fs).logs,
        (runRepos cfg env remote rest
          (backupRepository cfg env remote fs r).fs).attempted + 1⟩ := by
  simp [runRepos, h]

/-- Every descriptor's sync task runs, regardless of earlier failures. -/
theorem runRepos_attempted (cfg : Config) (env : GitEnv) (remote : Nat) :
    ∀ (repos : List Repo) (fs : Fs),
      (runRepos cfg env remote repos fs).attempted = repos.length := by
  intro repos
  induction repos with
  | nil => intro fs; rfl
  | cons r rest ih =>
    intro fs
    cases hres : (backupRepository cfg env remote fs r).result with
    | ok u => rw [runRepos_cons_ok cfg env remote r rest fs u hres]
              simp [ih]
    | error e => rw [runRepos_cons_err cfg env remote r rest fs e hres]
                 simp [ih]

/-- Every failed slug has a matching "Backup failed for <slug>: <cause>"
log line. -/
theorem runRepos_failed_logged (cfg : Config) (env : GitEnv) (remote : Nat) :
    ∀ (repos : List Repo) (fs : Fs) (s : String),
      s ∈ (runRepos cfg env remote repos fs).failed →
      ∃ msg, ("Backup failed for " ++ s ++ ": " ++ msg) ∈
        (runRepos cfg env remote repos fs).logs := by
  intro repos
  induction repos with
  | nil => intro fs s hs; simp [runRepos] at hs
  | cons r rest ih =>
    intro fs s hs
    cases hres : (backupRepository cfg env remote fs r).result with
    | ok u =>
      rw [runRepos_cons_ok cfg env remote r rest fs u hres] at hs ⊢
      obtain ⟨msg, hmsg⟩ := ih _ s hs
      exact ⟨msg, hmsg⟩
    | error e =>
      rw [runRepos_cons_err cfg env remote r rest fs e hres] at hs ⊢
      rcases List.mem_cons.mp hs with heq | htail
      · subst heq
        exact ⟨errMessage e, List.mem_cons_self _ _⟩
      · obtain ⟨msg, hmsg⟩ := ih _ s htail
        exact ⟨msg, List.mem_cons_of_mem _ hmsg⟩

/-- Listing success unfolds `main` to the fan-out outcome. -/
theorem main_listOk (cfg : Config) (api : Api) (env : GitEnv) (remote : Nat)
    (fs : Fs) (fuel elapsedMs : Nat) (repos : List Repo)
    (hg : (getAllRepositories cfg api fuel).1 = some (.ok repos)) :
    main cfg api env remote fs fuel elapsedMs =
      some ⟨0, (runRepos cfg env remote repos fs).attempted,
        (runRepos cfg env remote repos fs).failed,
        (runRepos cfg env remote repos fs).logs, 1, elapsedMs,
        (runRepos cfg env remote repos fs).fs⟩ := by
  simp [main, hg]

/-- Listing failure unfolds `main` to the fatal outcome. -/
theorem main_listErr (cfg : Config) (api : Api) (env : GitEnv) (remote : Nat)
    (fs : Fs) (fuel elapsedMs : Nat) (e : Option String)
    (hg : (getAllRepositories cfg api fuel).1 = some (.error e)) :
    main cfg api env remote fs fuel elapsedMs =
      some ⟨1, 0, [], ["Backup failed: " ++ errMessage e], 0, elapsedMs,
        fs⟩ := by
  simp [main, hg]

/-- C4: whenever the listing step succeeds, every failing per-repository
sync is caught at the orchestration boundary and logged with its slug,
no failure stops the sibling tasks (every descriptor's task runs), and the
process exits 0 regardless of how many repositories failed; the exit code
is non-zero only when the listing step itself failed. -/
theorem main_failureIsolation (cfg : Config) (api : Api) (env : GitEnv)
    (remote : Nat) (fs : Fs) (fuel elapsedMs : Nat) :
    (∀ repos, (getAllRepositories cfg api fuel).1 = some (.ok repos) →
      ∃ r, main cfg api env remote fs fuel elapsedMs = some r ∧
        r.exitCode = 0 ∧
        r.attempted = repos.length ∧
        (∀ s ∈ r.failed,
          ∃ msg, ("Backup failed for " ++ s ++ ": " ++ msg) ∈ r.logs)) ∧
    (∀ e, (getAllRepositories cfg api fuel).1 = some (.error e) →
      ∃ r, main cfg api env remote fs fuel elapsedMs = some r ∧
        r.exitCode = 1 ∧ r.attempted = 0) ∧
    (∀ r, main cfg api env remote fs fuel elapsedMs = some r →
      r.exitCode ≠ 0 →
      ∃ e, (getAllRepositories cfg api fuel).1 = some (.error e)) := by
  refine ⟨?_, ?_, ?_⟩
  · intro repos hg
    refine ⟨_, main_listOk cfg api env remote fs fuel elapsedMs repos hg,
      rfl, runRepos_attempted cfg env remote repos fs, ?_⟩
    intro s hs
    exact runRepos_failed_logged cfg env remote repos fs s hs
  · intro e hg
    exact ⟨_, main_listErr cfg api env remote fs fuel elapsedMs e hg, rfl,
      rfl⟩
  · intro r hr hne
    cases hg : (getAllRepositories cfg api fuel).1 with
    | none => rw [main, hg] at hr; cases hr
    | some res =>
      cases res with
      | error e => exact ⟨e, rfl⟩
      | ok repos =>
        rw [main_listOk cfg api env remote fs fuel elapsedMs repos hg] at hr
        cases hr
        exact absurd rfl hne

/-- The five-descriptor page used in the orchestrator witnesses. -/
def repos5 : List Repo :=
  [⟨"slug1", "n1"⟩, ⟨"slug2", "n2"⟩, ⟨"slug3", "n3"⟩, ⟨"slug4", "n4"⟩,
    ⟨"slug5", "n5"⟩]

/-- An endpoint returning a single page of five descriptors. -/
def api5 : Api := fun url _ =>
  if url = startUrl cfgEx then .ok ⟨repos5, none⟩ else .error "404"

/-- A git environment in which only `slug3`'s mirror clone fails (on every
attempt, with a spawn error); all other children exit 0 immediately. -/
def envFail3 : GitEnv := fun call _ =>
  if call = cloneCall cfgEx "slug3" then .errored "boom" 0 else .closed 0 0

/-- Witness for C4: five repositories of which `slug3` always fails; the
run exits 0, all five tasks ran, each failed slug is logged. -/
theorem main_failureIsolation_witness :
    ∃ r, main cfgEx api5 envFail3 0 (fun _ => none) 1 9 = some r ∧
      r.exitCode = 0 ∧ r.attempted = 5 ∧
      (∀ s ∈ r.failed,
        ∃ msg, ("Backup failed for " ++ s ++ ": " ++ msg) ∈ r.logs) := by
  obtain ⟨r, hm, h0, ha, hl⟩ :=
    (main_failureIsolation cfgEx api5 envFail3 0 (fun _ => none) 1 9).1
      repos5 rfl
  exact ⟨r, hm, h0, ha.trans rfl, hl⟩

/-- C7: for every run whose listing succeeds, the orchestrator settles to
exactly one run outcome whose attempted count is the number of listed
descriptors, whose failed list is the fold's failed-slug sequence, whose
duration is the elapsed wall clock, with exactly one summary line, and
with a success exit code. -/
theorem main_runOutcome (cfg : Config) (api : Api) (env : GitEnv)
    (remote : Nat) (fs : Fs) (fuel elapsedMs : Nat) (repos : List Repo)
    (hg : (getAllRepositories cfg api fuel).1 = some (.ok repos)) :
    main cfg api env remote fs fuel elapsedMs =
      some ⟨0, repos.length, (runRepos cfg env remote repos fs).failed,
        (runRepos cfg env remote repos fs).logs, 1, elapsedMs,
        (runRepos cfg env remote repos fs).fs⟩ := by
  rw [main_listOk cfg api env remote fs fuel elapsedMs repos hg,
    runRepos_attempted cfg env remote repos fs]

/-- Witness for C7: five repositories of which only `slug3`'s sync fails;
the outcome has `attempted = 5`, `failed = ["slug3"]`, one summary line,
the elapsed duration, and a success exit code. -/
theorem main_runOutcome_witness :
    main cfgEx api5 envFail3 0 (fun _ => none) 1 777 =
      some ⟨0, 5, ["slug3"],
        ["Backup failed for slug3: boom"], 1, 777,
        (runRepos cfgEx envFail3 0 repos5 (fun _ => none)).fs⟩ := by
  have h := main_runOutcome cfgEx api5 envFail3 0 (fun _ => none) 1 777
    repos5 rfl
  rw [h]
  rfl

/-- A page fetch whose every attempt fails exhausts the retries and yields
the last attempt's error. -/
theorem pageFetch_allFail (cfg : Config) (api : Api) (url : String)
    (msgf : Nat → String) (hmr : 1 ≤ cfg.maxRetries)
    (h : ∀ j, api url j = .error (msgf j)) :
    (pageFetch cfg api url).result =
      .error (some (msgf cfg.maxRetries)) := by
  unfold pageFetch
  rw [withRetry_permanentFailure cfg.maxRetries cfg.retryBaseMs hmr _ msgf h]

/-- A git retry wrapper whose every attempt fails exhausts the retries and
yields the last attempt's error. -/
theorem gitWithRetry_allFail (cfg : Config) (env : GitEnv) (call : GitCall)
    (msgf : Nat → String) (hmr : 1 ≤ cfg.maxRetries)
    (h : ∀ i, gitCmd cfg.gitTimeoutMs call.args (env call i) =
      .error (msgf i)) :
    (gitWithRetry cfg env call).result =
      .error (some (msgf cfg.maxRetries)) := by
  unfold gitWithRetry
  rw [withRetry_permanentFailure cfg.maxRetries cfg.retryBaseMs hmr _ msgf h]

/-- If the page at `u2`, reached after `n` successful cursor steps, fails
its fetch with `e`, the loop propagates exactly `e` whatever was already
accumulated. -/
theorem getAllRepositoriesGo_errorAt (cfg : Config) (api : Api) :
    ∀ u u2 n, Reaches cfg api u u2 n →
      ∀ e, (pageFetch cfg api u2).result = .error e →
      ∀ fuel acc, n < fuel →
        (getAllRepositoriesGo cfg api fuel u acc).1 = some (.error e) := by
  intro u u2 n hr
  induction hr with
  | refl u =>
    intro e he fuel acc hf
    match fuel, hf with
    | f + 1, _ => simp [getAllRepositoriesGo, he]
  | step u p u2 u3 n hfetch hnext h ih =>
    intro e he fuel acc hf
    match fuel, hf with
    | f + 1, hf =>
      have hn : n < f := by omega
      simp [getAllRepositoriesGo, hfetch, hnext,
        ih e he f (acc ++ p.values) hn]

/-- C6: if any page fetch exhausts its retry budget, the whole listing
fails with that error and every descriptor accumulated from earlier pages
is discarded (the loop's outcome is the bare error, for any accumulator),
and the main orchestrator treats it as fatal: nothing is synced, the
failure is logged, no summary is emitted, and the process exits 1. -/
theorem listingFailure_fatal (cfg : Config) (api : Api) (env : GitEnv)
    (remote : Nat) (fs : Fs) (elapsedMs : Nat) (u : String) (n : Nat)
    (e : Option String)
    (hreach : Reaches cfg api (startUrl cfg) u n)
    (herr : (pageFetch cfg api u).result = .error e) :
    ∀ fuel, n < fuel →
      (∀ acc, (getAllRepositoriesGo cfg api fuel (startUrl cfg) acc).1 =
        some (.error e)) ∧
      main cfg api env remote fs fuel elapsedMs =
        some ⟨1, 0, [], ["Backup failed: " ++ errMessage e], 0, elapsedMs,
          fs⟩ := by
  intro fuel hf
  have hacc : ∀ acc,
      (getAllRepositoriesGo cfg api fuel (startUrl cfg) acc).1 =
        some (.error e) :=
    fun acc => getAllRepositoriesGo_errorAt cfg api _ u n hreach e herr fuel
      acc hf
  exact ⟨hacc,
    main_listErr cfg api env remote fs fuel elapsedMs e (hacc [])⟩

/-- An endpoint whose first page succeeds (with a next cursor) and whose
second page always fails. -/
def apiErr : Api := fun url _ =>
  if url = startUrl cfgEx then .ok ⟨pageRepos "a" 2, some "u2"⟩
  else .error "boom"

/-- Witness for C6: the first page's two descriptors are discarded when
the second page fails; the run is fatal with exit code 1. -/
theorem listingFailure_fatal_witness :
    (getAllRepositoriesGo cfgEx apiErr 3 (startUrl cfgEx) []).1 =
      some (.error (some "boom")) ∧
    main cfgEx apiErr envOk 0 (fun _ => none) 3 55 =
      some ⟨1, 0, [], ["Backup failed: boom"], 0, 55, fun _ => none⟩ := by
  have hreach : Reaches cfgEx apiErr (startUrl cfgEx) "u2" 1 :=
    .step _ ⟨pageRepos "a" 2, some "u2"⟩ _ _ 0
      (pageFetch_ok cfgEx apiErr _ _ (by decide) rfl) rfl (.refl "u2")
  have herr : (pageFetch cfgEx apiErr "u2").result =
      .error (some "boom") :=
    pageFetch_allFail cfgEx apiErr "u2" (fun _ => "boom") (by decide)
      (fun j => rfl)
  have h := listingFailure_fatal cfgEx apiErr envOk 0 (fun _ => none) 55
    "u2" 1 (some "boom") hreach herr 3 (by norm_num)
  exact ⟨h.1 [], by rw [h.2]; rfl⟩

/-- A git environment in which every child fails to spawn. -/
def envBoom : GitEnv := fun _ _ => .errored "boom" 0

/-- C8 counterexample: after the retry executor exhausts its attempts, the
synchronizer propagates the raw last error unchanged — here the literal
spawn-error message "boom", a value carrying no slug and no domain
relabel such as SyncFailed(slug, cause); the claim that the caller
receives a re-labelled failure rather than the raw last error is false at
this input. -/
theorem syncError_raw_counterexample :
    (backupRepository cfgEx envBoom 0 (fun _ => none) ⟨"r1", "R1"⟩).result =
      .error (some "boom") := by
  rfl

/-- C8 amended: on exhausted retries `withRetry` re-raises the raw last
failure, and both immediate callers propagate that raw error value
unchanged — the Mirror Synchronizer's result error is exactly the failing
subprocess wrapper's error and the Repository Lister's outcome is exactly
the failing page fetch's error; slug and description context appear only
in log lines, not in the propagated error. -/
theorem error_propagation_raw (cfg : Config) (env : GitEnv) (api : Api)
    (remote : Nat) (fs : Fs) (repo : Repo) (e : Option String) :
    (fs (targetPath cfg repo.slug) = none →
      (gitWithRetry cfg env (cloneCall cfg repo.slug)).result = .error e →
      (backupRepository cfg env remote fs repo).result = .error e) ∧
    (∀ m, fs (targetPath cfg repo.slug) = some m →
      (gitWithRetry cfg env (setUrlCall cfg repo.slug)).result = .error e →
      (backupRepository cfg env remote fs repo).result = .error e) ∧
    (∀ m, fs (targetPath cfg repo.slug) = some m →
      (gitWithRetry cfg env (setUrlCall cfg repo.slug)).result = .ok () →
      (gitWithRetry cfg env (fetchCall cfg repo.slug)).result = .error e →
      (backupRepository cfg env remote fs repo).result = .error e) ∧
    (∀ u2 n fuel, Reaches cfg api (startUrl cfg) u2 n → n < fuel →
      (pageFetch cfg api u2).result = .error e →
      (getAllRepositories cfg api fuel).1 = some (.error e)) := by
  refine ⟨?_, ?_, ?_, ?_⟩
  · intro hn he
    rw [backupRepository_absent_err cfg env remote fs repo e hn he]
  · intro m hm he
    rw [backupRepository_present_err1 cfg env remote fs repo m e hm he]
  · intro m hm h1 h2
    rw [backupRepository_present_err2 cfg env remote fs repo m e hm h1 h2]
  · intro u2 n fuel hreach hf herr
    exact getAllRepositoriesGo_errorAt cfg api _ u2 n hreach e herr fuel []
      hf

/-- Witness for the amended C8: a permanently failing clone propagates the
raw spawn error "boom" to the synchronizer's caller. -/
theorem error_propagation_raw_witness :
    (backupRepository cfgEx envBoom 0 (fun _ => none) ⟨"r2", "R2"⟩).result =
      .error (some "boom") := by
  have hgw : (gitWithRetry cfgEx envBoom (cloneCall cfgEx "r2")).result =
      .error (some "boom") :=
    gitWithRetry_allFail cfgEx envBoom _ (fun _ => "boom") (by decide)
      (fun i => rfl)
  exact (error_propagation_raw cfgEx envBoom apiEx 0 (fun _ => none)
    ⟨"r2", "R2"⟩ (some "boom")).1 rfl hgw

end BitbucketBackup
